import Mathlib

/-!
Verification of the windash-agent streaming transport core.

The development shallowly embeds the Go sources of the repository:
* `internal/ws/backpressure.go` — the bounded relay buffer with drop-oldest
  backpressure (`BackpressureBuffer`, `Push`, `PopBatch`, `Len`, `DroppedCount`);
* `internal/ws/client.go` — the write loop's batch sending, the read loop's
  error discipline, the control-message handler, and the supervisor's
  exponential backoff with jitter;
* the `ws` message shapes (`AgentMessage`, `ControlMessage`).

A Go buffered channel of capacity `size` is modelled as a `List` (head =
oldest element, i.e. the next one a receive would take).  A non-blocking send
(`select { case ch <- x: ... default: ... }`) succeeds exactly when the
channel holds fewer than `size` elements; a non-blocking receive succeeds
exactly when it is non-empty.  `time.Duration` values are modelled as natural
numbers of nanoseconds.  Log side effects relevant to the claims are made
observable as explicit fields/log lists.
-/

namespace WindashAgent

/-- Telemetry records (`*metrics.SampleV1`) are opaque payloads for the
transport core; the buffer is parametric in the record type and concrete
instances use `Nat` labels. -/
abbrev Sample := Nat

namespace ws

/-- BackpressureBuffer (backpressure.go lines 13–19): a buffered channel of
capacity `bufferSize` plus a cumulative `dropped` counter.  The channel
contents are the list `buffer`, head = oldest.  The two warning side effects
of `Push` are recorded: `dropWarnLog` lists the values of the dropped counter
at which the every-10th-drop backpressure warning fired, and `failWarnCount`
counts the "Failed to add sample even after dropping oldest" warnings. -/
structure BackpressureBuffer (α : Type) where
  bufferSize : Nat
  buffer : List α
  dropped : Nat
  dropWarnLog : List Nat
  failWarnCount : Nat
  deriving DecidableEq

/-- NewBackpressureBuffer (backpressure.go lines 22–28): empty channel of
capacity `size`, zero dropped counter. -/
def NewBackpressureBuffer (α : Type) (size : Nat) : BackpressureBuffer α :=
  { bufferSize := size, buffer := [], dropped := 0, dropWarnLog := [], failWarnCount := 0 }

/-- Push (backpressure.go lines 31–61).  The first non-blocking send succeeds
iff the channel has free capacity; otherwise the dropped counter is
incremented, one oldest element is removed if present (non-blocking receive),
the new sample is appended if the retry send succeeds (otherwise the
failure warning fires), and the backpressure warning fires iff the new
dropped count is divisible by 10. -/
def Push (b : BackpressureBuffer α) (sample : α) : BackpressureBuffer α :=
  if b.buffer.length < b.bufferSize then
    { b with buffer := b.buffer ++ [sample] }
  else
    let droppedCount := b.dropped + 1
    let afterRemove := b.buffer.tail
    { bufferSize := b.bufferSize
      buffer := if afterRemove.length < b.bufferSize then afterRemove ++ [sample] else afterRemove
      dropped := droppedCount
      dropWarnLog :=
        if droppedCount % 10 = 0 then b.dropWarnLog ++ [droppedCount] else b.dropWarnLog
      failWarnCount :=
        b.failWarnCount + (if afterRemove.length < b.bufferSize then 0 else 1) }

/-- PopBatch (backpressure.go lines 64–87).  The first receive blocks until a
sample is available or the context is done.  `ctxDone` records whether the
select took the cancellation branch, in which case the Go function returns
`nil` (modelled as `none`).  With no concurrent producer, a call on an empty
buffer with a live context never returns; that state is unreachable in the
theorems below, and the model returns `none` there as a placeholder.  After
the first sample, up to `maxCount - 1` further samples are taken without
blocking (the `for i := 1; i < maxCount` loop). -/
def PopBatch (b : BackpressureBuffer α) (ctxDone : Bool) (maxCount : Nat) :
    Option (List α) × BackpressureBuffer α :=
  if ctxDone then (none, b)
  else
    match b.buffer with
    | [] => (none, b)
    | s :: rest =>
        (some (s :: rest.take (maxCount - 1)), { b with buffer := rest.drop (maxCount - 1) })

/-- Len (backpressure.go lines 90–92): current channel length. -/
def Len (b : BackpressureBuffer α) : Nat :=
  b.buffer.length

/-- DroppedCount (backpressure.go lines 95–99). -/
def DroppedCount (b : BackpressureBuffer α) : Nat :=
  b.dropped

/-- A sequence of `Push` calls, oldest first. -/
def pushSeq (b : BackpressureBuffer α) (xs : List α) : BackpressureBuffer α :=
  xs.foldl Push b

/-- One buffer operation of a producer/consumer trace: a producer `Push` or a
writer `PopBatch` with the given `maxCount`. -/
inductive BufOp (α : Type)
  | push (sample : α)
  | popBatch (maxCount : Nat)
  deriving DecidableEq

/-- Effect of one trace operation: the new buffer state and the records
delivered to the transport boundary by this operation.  A `popBatch` on an
empty buffer blocks until cancellation and delivers nothing (the Go call
returns `nil`). -/
def runOp (b : BackpressureBuffer α) : BufOp α → BackpressureBuffer α × List α
  | .push s => (Push b s, [])
  | .popBatch k =>
      if b.buffer.isEmpty then (b, [])
      else
        let r := PopBatch b false k
        (r.2, r.1.getD [])

/-- Run a trace of buffer operations; returns the final state and the
concatenation of all delivered batches, in delivery order. -/
def runTrace (b : BackpressureBuffer α) : List (BufOp α) → BackpressureBuffer α × List α
  | [] => (b, [])
  | op :: ops =>
      let r := runOp b op
      let rest := runTrace r.1 ops
      (rest.1, r.2 ++ rest.2)

/-- The records pushed by a trace, in push order. -/
def pushedRecords : List (BufOp α) → List α
  | [] => []
  | .push s :: ops => s :: pushedRecords ops
  | .popBatch _ :: ops => pushedRecords ops

/-- Nanoseconds per second; `time.Duration` counts nanoseconds. -/
def nsPerSecond : Nat := 1000000000

/-- initialBackoff (client.go line 24): `1 * time.Second`. -/
def initialBackoff : Nat := 1 * nsPerSecond

/-- maxBackoff (client.go line 25): `2 * time.Minute`. -/
def maxBackoff : Nat := 120 * nsPerSecond

/-- backoffFactor (client.go line 26): `2.0`.  Every stored backoff value is
at most `240e9 < 2^53`, so the Go `float64` doubling is exact and is modelled
as multiplication on naturals. -/
def backoffFactor : Nat := 2

/-- jitter (client.go line 27): `0.2`. -/
def jitter : ℚ := 1 / 5

/-- batchSize (client.go line 31). -/
def batchSize : Nat := 10

/-- addJitter (client.go lines 285–288): multiplier `1 + (rand*2 - 1) * j`
with `rand = rand.Float64() ∈ [0,1)` taken as a parameter.  The Go function
truncates the product to whole nanoseconds; the claims concern the multiplier
range, stated here on the exact rational value. -/
def addJitter (duration : Nat) (j rand : ℚ) : ℚ :=
  (1 + (rand * 2 - 1) * j) * duration

/-- One iteration of the supervisor loop Run (client.go lines 60–98), acting
on the stored `backoff`.  On connect failure (lines 71–83): sleep
`addJitter backoff jitter` (returned as the second component), then double
the stored backoff and cap it at `maxBackoff`.  On success (line 86): reset
the stored backoff to `initialBackoff` and sleep nothing. -/
def runStep (backoff : Nat) (connectOk : Bool) (rand : ℚ) : Nat × Option ℚ :=
  if connectOk then (initialBackoff, none)
  else
    let slept := addJitter backoff jitter rand
    let grown := backoff * backoffFactor
    (if grown > maxBackoff then maxBackoff else grown, some slept)

/-- Stored backoff after `n` consecutive connect failures, starting from the
floor (the jitter draw does not influence the stored value; `0` is passed). -/
def backoffAfterFailures : Nat → Nat
  | 0 => initialBackoff
  | n + 1 => (runStep (backoffAfterFailures n) false 0).1

/-- AgentMessage (messages.go): the outbound envelope.  `msgType` carries the
wire key "type", `samples` the key "samples". -/
structure AgentMessage (α : Type) where
  msgType : String
  samples : List α
  deriving DecidableEq

/-- sendSamples (client.go lines 246–263): wraps a batch into one envelope
with discriminant "metrics" and sends it as a single message. -/
def sendSamples (samples : List α) : AgentMessage α :=
  { msgType := "metrics", samples := samples }

/-- One batch-sending iteration of writeLoop's default branch (client.go
lines 216–228): pop up to `batchSize` samples; iff at least one was obtained
(`len(samples) > 0`), send them all as one envelope via `sendSamples`. -/
def writeStep (b : BackpressureBuffer α) (ctxDone : Bool) :
    Option (AgentMessage α) × BackpressureBuffer α :=
  let r := PopBatch b ctxDone batchSize
  let samples := r.1.getD []
  if 0 < samples.length then (some (sendSamples samples), r.2) else (none, r.2)

/-- ControlMessage (messages.go): inbound directive.  `msgType` carries the
wire key "type", `intervalMs` the key "intervalMs" (used by setRate). -/
structure ControlMessage where
  msgType : String
  intervalMs : Int
  deriving DecidableEq

/-- Client (client.go lines 35–43): connection parameters, the connection
handle (modelled as an opaque `Option Nat`, `some` when connected), and the
relay buffer. -/
structure Client (α : Type) where
  apiURL : String
  token : String
  hostID : String
  conn : Option Nat
  buffer : BackpressureBuffer α
  deriving DecidableEq

/-- handleControlMessage (client.go lines 266–282): switch on the
discriminant; every branch only logs (the setRate/pause/resume actions are
TODO stubs) and the client state is returned unchanged.  The emitted log
lines are returned alongside. -/
def handleControlMessage (c : Client α) (msg : ControlMessage) :
    Client α × List String :=
  let received := "Received control message " ++ msg.msgType
  match msg.msgType with
  | "setRate" =>
      (c, [received, "[TODO] Change metrics interval " ++ toString msg.intervalMs])
  | "pause" => (c, [received, "[TODO] Pause metrics collection"])
  | "resume" => (c, [received, "[TODO] Resume metrics collection"])
  | _ => (c, [received, "Unknown control message type " ++ msg.msgType])

/-- One inbound read of readLoop: either a transport-level read error from
`conn.ReadMessage`, or a frame whose `json.Unmarshal` into a ControlMessage
either fails (`none`) or yields a parsed message. -/
inductive InboundRead
  | readErr
  | frame (parsed : Option ControlMessage)
  deriving DecidableEq

/-- Whether a readLoop iteration continues the loop or returns (ending the
session via the deferred cancel). -/
inductive ReadOutcome
  | continueLoop
  | endSession
  deriving DecidableEq

/-- One iteration of readLoop (client.go lines 165–186): a read error returns
from the loop; a frame that fails to parse is logged and skipped
(`continue`); a parsed frame is dispatched to handleControlMessage and the
loop continues. -/
def readStep (c : Client α) (ev : InboundRead) : ReadOutcome × Client α × List String :=
  match ev with
  | .readErr => (.endSession, c, ["WebSocket read error"])
  | .frame none => (.continueLoop, c, ["Failed to parse control message"])
  | .frame (some ctrl) =>
      let h := handleControlMessage c ctrl
      (.continueLoop, h.1, h.2)

end ws

end WindashAgent

namespace WindashAgent
namespace ws

lemma Push_bufferSize (b : BackpressureBuffer α) (x : α) :
    (Push b x).bufferSize = b.bufferSize := by
  unfold Push
  split <;> rfl

lemma Push_of_not_full (b : BackpressureBuffer α) (x : α)
    (h : b.buffer.length < b.bufferSize) :
    Push b x = { b with buffer := b.buffer ++ [x] } := by
  unfold Push
  rw [if_pos h]

lemma Push_of_full (b : BackpressureBuffer α) (x : α)
    (hfull : b.buffer.length = b.bufferSize) (hpos : 0 < b.bufferSize) :
    (Push b x).buffer = b.buffer.tail ++ [x] ∧ (Push b x).dropped = b.dropped + 1 := by
  have hnlt : ¬ b.buffer.length < b.bufferSize := by omega
  have htail : b.buffer.tail.length < b.bufferSize := by
    have := b.buffer.length_tail
    omega
  unfold Push
  rw [if_neg hnlt]
  simp only [List.length_tail] at htail
  simp [htail]

lemma pushSeq_no_drop (xs : List α) :
    ∀ b : BackpressureBuffer α, b.buffer.length + xs.length ≤ b.bufferSize →
      pushSeq b xs = { b with buffer := b.buffer ++ xs } := by
  induction xs with
  | nil => intro b _; simp [pushSeq]
  | cons x xs ih =>
      intro b h
      have hx : b.buffer.length < b.bufferSize := by
        simp only [List.length_cons] at h; omega
      have : pushSeq b (x :: xs) = pushSeq (Push b x) xs := by
        simp [pushSeq, List.foldl_cons]
      rw [this, Push_of_not_full b x hx, ih]
      · simp
      · simp only [List.length_append, List.length_cons] at h ⊢
        simpa using by omega

lemma PopBatch_eq (b : BackpressureBuffer α) (k : Nat) (s : α) (rest : List α)
    (hb : b.buffer = s :: rest) :
    PopBatch b false k =
      (some (s :: rest.take (k - 1)), { b with buffer := rest.drop (k - 1) }) := by
  simp only [PopBatch, Bool.false_eq_true, if_false, hb]

lemma PopBatch_done (b : BackpressureBuffer α) (k : Nat) :
    PopBatch b true k = (none, b) := by
  simp [PopBatch]

lemma Push_buffer_sublist (b : BackpressureBuffer α) (x : α) :
    (Push b x).buffer.Sublist (b.buffer ++ [x]) := by
  unfold Push
  split
  · exact List.Sublist.refl _
  · dsimp only
    split
    · exact (List.tail_sublist b.buffer).append_right _
    · exact (List.tail_sublist b.buffer).trans (List.sublist_append_left _ _)

lemma Push_length_le (b : BackpressureBuffer α) (x : α)
    (h : b.buffer.length ≤ b.bufferSize) :
    (Push b x).buffer.length ≤ b.bufferSize := by
  unfold Push
  split
  · simp only [List.length_append, List.length_cons, List.length_nil]
    omega
  · dsimp only
    split <;> simp [List.length_tail] <;> omega

lemma runOp_bufferSize (b : BackpressureBuffer α) (op : BufOp α) :
    (runOp b op).1.bufferSize = b.bufferSize := by
  cases op with
  | push s => simpa [runOp] using Push_bufferSize b s
  | popBatch k =>
      by_cases hb : b.buffer.isEmpty
      · simp [runOp, hb]
      · obtain ⟨s, rest, hcons⟩ : ∃ s rest, b.buffer = s :: rest := by
          cases hbuf : b.buffer with
          | nil => rw [hbuf] at hb; simp at hb
          | cons s rest => exact ⟨s, rest, rfl⟩
        simp [runOp, hb, PopBatch_eq b k s rest hcons]

lemma runOp_length_le (b : BackpressureBuffer α) (op : BufOp α)
    (h : b.buffer.length ≤ b.bufferSize) :
    (runOp b op).1.buffer.length ≤ b.bufferSize := by
  cases op with
  | push s => simpa [runOp] using Push_length_le b s h
  | popBatch k =>
      by_cases hb : b.buffer.isEmpty
      · simpa [runOp, hb] using h
      · obtain ⟨s, rest, hcons⟩ : ∃ s rest, b.buffer = s :: rest := by
          cases hbuf : b.buffer with
          | nil => rw [hbuf] at hb; simp at hb
          | cons s rest => exact ⟨s, rest, rfl⟩
        simp only [runOp]
        rw [if_neg hb]
        simp only [PopBatch_eq b k s rest hcons]
        have hr : rest.length + 1 ≤ b.bufferSize := by simpa [hcons] using h
        have hd := List.length_drop (k - 1) rest
        omega

lemma runTrace_bufferSize (ops : List (BufOp α)) :
    ∀ b : BackpressureBuffer α, (runTrace b ops).1.bufferSize = b.bufferSize := by
  induction ops with
  | nil => intro b; simp [runTrace]
  | cons op ops ih =>
      intro b
      simpa [runTrace] using (ih (runOp b op).1).trans (runOp_bufferSize b op)

lemma runTrace_length_le (ops : List (BufOp α)) :
    ∀ b : BackpressureBuffer α, b.buffer.length ≤ b.bufferSize →
      (runTrace b ops).1.buffer.length ≤ b.bufferSize := by
  induction ops with
  | nil => intro b h; simpa [runTrace] using h
  | cons op ops ih =>
      intro b h
      have h1 : (runOp b op).1.buffer.length ≤ (runOp b op).1.bufferSize := by
        rw [runOp_bufferSize]; exact runOp_length_le b op h
      have h2 := ih (runOp b op).1 h1
      rw [runOp_bufferSize] at h2
      simpa [runTrace] using h2

lemma runTrace_sublist (ops : List (BufOp α)) :
    ∀ b : BackpressureBuffer α,
      ((runTrace b ops).2 ++ (runTrace b ops).1.buffer).Sublist
        (b.buffer ++ pushedRecords ops) := by
  induction ops with
  | nil => intro b; simp [runTrace, pushedRecords]
  | cons op ops ih =>
      intro b
      cases op with
      | push s =>
          have h1 := ih (Push b s)
          have h3 :
              ((runTrace (Push b s) ops).2 ++ (runTrace (Push b s) ops).1.buffer).Sublist
                ((b.buffer ++ [s]) ++ pushedRecords ops) :=
            h1.trans ((Push_buffer_sublist b s).append_right _)
          simpa [runTrace, runOp, pushedRecords, List.append_assoc] using h3
      | popBatch k =>
          by_cases hb : b.buffer.isEmpty
          · have h1 := ih b
            simpa [runTrace, runOp, hb, pushedRecords] using h1
          · obtain ⟨s, rest, hcons⟩ : ∃ s rest, b.buffer = s :: rest := by
              cases hbuf : b.buffer with
              | nil => rw [hbuf] at hb; simp at hb
              | cons s rest => exact ⟨s, rest, rfl⟩
            set b' : BackpressureBuffer α := { b with buffer := rest.drop (k - 1) } with hb'
            have h1 := ih b'
            have h2 :
                ((s :: rest.take (k - 1)) ++ ((runTrace b' ops).2 ++ (runTrace b' ops).1.buffer)).Sublist
                  ((s :: rest.take (k - 1)) ++ (b'.buffer ++ pushedRecords ops)) :=
              h1.append_left _
            have h3 : (s :: rest.take (k - 1)) ++ (b'.buffer ++ pushedRecords ops)
                = b.buffer ++ pushedRecords ops := by
              simp only [hb', hcons, List.cons_append, List.append_assoc]
              rw [← List.append_assoc, List.take_append_drop]
            rw [h3] at h2
            simpa [runTrace, runOp, hb, pushedRecords, PopBatch_eq b k s rest hcons,
              List.append_assoc] using h2

lemma PopBatch_nil (b : BackpressureBuffer α) (k : Nat) (hb : b.buffer = []) :
    PopBatch b false k = (none, b) := by
  simp only [PopBatch, Bool.false_eq_true, if_false, hb]

/-- C1: Drop-oldest backpressure: pushing the records 1..C+1 into an empty
buffer of capacity C leaves the buffer holding exactly 2..C+1 (the oldest was
evicted, never a newer one); in particular a capacity-5 buffer after pushing
1..8 holds exactly [4,5,6,7,8], its dropped counter is 3, and a subsequent
PopBatch with maxCount 10 returns exactly [4,5,6,7,8] in that order. -/
theorem claim1_drop_oldest (C : Nat) :
    (pushSeq (NewBackpressureBuffer Sample C) (List.range' 1 (C + 1))).buffer
        = List.range' 2 C
  ∧ (pushSeq (NewBackpressureBuffer Sample 5) [1, 2, 3, 4, 5, 6, 7, 8]).buffer
        = [4, 5, 6, 7, 8]
  ∧ (pushSeq (NewBackpressureBuffer Sample 5) [1, 2, 3, 4, 5, 6, 7, 8]).dropped = 3
  ∧ (PopBatch (pushSeq (NewBackpressureBuffer Sample 5) [1, 2, 3, 4, 5, 6, 7, 8])
        false 10).1 = some [4, 5, 6, 7, 8] := by
  refine ⟨?_, by decide, by decide, by decide⟩
  cases C with
  | zero => decide
  | succ m =>
      have hsplit : List.range' 1 (m + 2) = List.range' 1 (m + 1) ++ [m + 2] := by
        have h := List.range'_1_concat 1 (m + 1)
        have h2 : 1 + (m + 1) = m + 2 := by omega
        rw [h2] at h
        exact h
      have hlen : (List.range' 1 (m + 1)).length = m + 1 := List.length_range' _ _ _
      have hfill :
          pushSeq (NewBackpressureBuffer Sample (m + 1)) (List.range' 1 (m + 1))
            = { NewBackpressureBuffer Sample (m + 1) with buffer := List.range' 1 (m + 1) } := by
        have h := pushSeq_no_drop (α := Sample) (List.range' 1 (m + 1))
          (NewBackpressureBuffer Sample (m + 1))
          (by simp [NewBackpressureBuffer, hlen])
        simpa [NewBackpressureBuffer] using h
      have hstep :
          pushSeq (NewBackpressureBuffer Sample (m + 1)) (List.range' 1 (m + 2))
            = Push (pushSeq (NewBackpressureBuffer Sample (m + 1)) (List.range' 1 (m + 1)))
                (m + 2) := by
        rw [hsplit]; simp [pushSeq, List.foldl_append]
      rw [hstep, hfill]
      have hfull := Push_of_full
        (b := { NewBackpressureBuffer Sample (m + 1) with buffer := List.range' 1 (m + 1) })
        (x := m + 2) (by simp [NewBackpressureBuffer, hlen])
        (by simp [NewBackpressureBuffer])
      rw [hfull.1]
      have htail : (List.range' 1 (m + 1)).tail = List.range' 2 m := by
        rw [List.range'_succ]
        norm_num
      rw [htail]
      have hc := (List.range'_1_concat 2 m).symm
      have h2 : 2 + m = m + 2 := by omega
      rw [h2] at hc
      exact hc

/-- C2: FIFO among retained records: a push sequence without eviction leaves
the buffer in push order and PopBatch returns a prefix of it in push order;
and for an arbitrary trace of Push/PopBatch operations, the delivered records
followed by the still-buffered records embed (as a sublist, i.e. in original
relative order and without repetition) into the pushed records — evicted
records are skipped, the rest are never reordered and never resent. -/
theorem claim2_fifo_retained (C : Nat) (xs : List Sample) (ops : List (BufOp Sample))
    (k : Nat) (hlen : xs.length ≤ C) (hne : xs ≠ []) :
    (pushSeq (NewBackpressureBuffer Sample C) xs).buffer = xs
  ∧ (PopBatch (pushSeq (NewBackpressureBuffer Sample C) xs) false k).1
      = some (xs.take (max 1 k))
  ∧ ((runTrace (NewBackpressureBuffer Sample C) ops).2
      ++ (runTrace (NewBackpressureBuffer Sample C) ops).1.buffer).Sublist
        (pushedRecords ops) := by
  have hbuf : (pushSeq (NewBackpressureBuffer Sample C) xs).buffer = xs := by
    have h := pushSeq_no_drop (α := Sample) xs (NewBackpressureBuffer Sample C)
      (by simpa [NewBackpressureBuffer] using hlen)
    rw [h]
    simp [NewBackpressureBuffer]
  refine ⟨hbuf, ?_, ?_⟩
  · obtain ⟨s, rest, hcons⟩ : ∃ s rest, xs = s :: rest := by
      cases xs with
      | nil => exact absurd rfl hne
      | cons s rest => exact ⟨s, rest, rfl⟩
    have hpop := PopBatch_eq (pushSeq (NewBackpressureBuffer Sample C) xs) k s rest
      (hbuf.trans hcons)
    rw [hpop, hcons]
    cases k with
    | zero => simp
    | succ m => simp [List.take_succ_cons]
  · have h := runTrace_sublist (α := Sample) ops (NewBackpressureBuffer Sample C)
    simpa [NewBackpressureBuffer] using h

/-- Witness for C2 at capacity 3, pushes [7,8], trace
[push 1, push 2, popBatch 5], maxCount 4. -/
theorem claim2_fifo_retained_witness :
    (pushSeq (NewBackpressureBuffer Sample 3) [7, 8]).buffer = [7, 8]
  ∧ (PopBatch (pushSeq (NewBackpressureBuffer Sample 3) [7, 8]) false 4).1
      = some ([7, 8].take (max 1 4))
  ∧ ((runTrace (NewBackpressureBuffer Sample 3)
        [BufOp.push 1, BufOp.push 2, BufOp.popBatch 5]).2
      ++ (runTrace (NewBackpressureBuffer Sample 3)
        [BufOp.push 1, BufOp.push 2, BufOp.popBatch 5]).1.buffer).Sublist
        (pushedRecords [BufOp.push 1, BufOp.push 2, BufOp.popBatch 5]) :=
  claim2_fifo_retained 3 [7, 8] [BufOp.push 1, BufOp.push 2, BufOp.popBatch 5] 4
    (by decide) (by decide)

/-- C3: PopBatch blocks for the first record (so with a record available it
returns a non-nil batch) and returns nil on cancellation; after the first
record it drains without blocking, so the batch size is the minimum of the
requested count and the records available at call time; with maxCount 10 the
result never exceeds 10 records and is smaller only when the call exhausted
the buffer. -/
theorem claim3_popbatch (b : BackpressureBuffer Sample) (k : Nat)
    (hne : b.buffer ≠ []) :
    (PopBatch b true k).1 = none
  ∧ (∃ l, (PopBatch b false k).1 = some l ∧ l ≠ []
      ∧ l.length = min (max 1 k) b.buffer.length
      ∧ (PopBatch b false k).2.buffer.length = b.buffer.length - l.length)
  ∧ (∀ l, (PopBatch b false 10).1 = some l →
      l.length ≤ 10 ∧ (l.length < 10 → (PopBatch b false 10).2.buffer = [])) := by
  obtain ⟨s, rest, hcons⟩ : ∃ s rest, b.buffer = s :: rest := by
    cases hbuf : b.buffer with
    | nil => exact absurd hbuf hne
    | cons s rest => exact ⟨s, rest, rfl⟩
  refine ⟨by simp [PopBatch_done], ?_, ?_⟩
  · refine ⟨s :: rest.take (k - 1), ?_, by simp, ?_, ?_⟩
    · rw [PopBatch_eq b k s rest hcons]
    · simp only [hcons, List.length_cons, List.length_take]
      omega
    · rw [PopBatch_eq b k s rest hcons]
      simp only [hcons, List.length_cons, List.length_take, List.length_drop]
      omega
  · intro l hl
    rw [PopBatch_eq b 10 s rest hcons] at hl
    obtain rfl : l = s :: rest.take 9 := by
      simpa using hl.symm
    constructor
    · simp only [List.length_cons, List.length_take]
      omega
    · intro hlt
      rw [PopBatch_eq b 10 s rest hcons]
      simp only [List.length_cons, List.length_take] at hlt
      have : rest.length ≤ 9 := by omega
      simp [List.drop_eq_nil_of_le, this]

/-- A concrete buffer state (capacity 5, holding [1,2,3]) used to
instantiate theorems with hypotheses. -/
def exampleBuf : BackpressureBuffer Sample :=
  { bufferSize := 5, buffer := [1, 2, 3], dropped := 0, dropWarnLog := [],
    failWarnCount := 0 }

/-- Witness for C3 at `exampleBuf` with maxCount 10. -/
theorem claim3_popbatch_witness :
    (PopBatch exampleBuf true 10).1 = none
  ∧ ([1, 2, 3] : List Sample).length ≤ 10
  ∧ (PopBatch exampleBuf false 10).2.buffer = [] := by
  refine ⟨(claim3_popbatch exampleBuf 10 (by decide)).1, ?_, ?_⟩
  · exact ((claim3_popbatch exampleBuf 10 (by decide)).2.2 [1, 2, 3] (by decide)).1
  · exact ((claim3_popbatch exampleBuf 10 (by decide)).2.2 [1, 2, 3] (by decide)).2
      (by decide)

lemma backoffAfterFailures_eq (n : Nat) :
    backoffAfterFailures n = min (2 ^ n * nsPerSecond) maxBackoff := by
  induction n with
  | zero =>
      simp [backoffAfterFailures, initialBackoff, nsPerSecond, maxBackoff]
  | succ m ih =>
      have hmul : 2 ^ (m + 1) = 2 ^ m * 2 := by ring
      rw [backoffAfterFailures, runStep, hmul]
      simp only [Bool.false_eq_true, if_false, ih]
      simp only [initialBackoff, maxBackoff, nsPerSecond, backoffFactor, gt_iff_lt]
      split <;> omega

/-- C4: Backoff schedule: the stored backoff starts at the 1-second floor,
after n consecutive connect failures equals min(2^n seconds, 120 seconds)
(growth factor 2, capped at the 2-minute ceiling), is non-decreasing along
failures, and is reset to the floor by one successful connect; the slept
retry delay of a failing attempt is the stored backoff times the jitter
multiplier, which lies in [1 - 0.2, 1 + 0.2] for any random draw in [0,1],
and the jitter never feeds back into the stored backoff (the grown value is
the same for any two draws). -/
theorem claim4_backoff (n back : Nat) (r r2 : ℚ) (hr0 : 0 ≤ r) (hr1 : r ≤ 1) :
    backoffAfterFailures 0 = initialBackoff
  ∧ backoffAfterFailures n = min (2 ^ n * nsPerSecond) maxBackoff
  ∧ backoffAfterFailures n ≤ backoffAfterFailures (n + 1)
  ∧ (runStep back true r).1 = initialBackoff
  ∧ (runStep back false r).2 = some (addJitter back jitter r)
  ∧ (1 - 1 / 5 : ℚ) * back ≤ addJitter back jitter r
  ∧ addJitter back jitter r ≤ (1 + 1 / 5 : ℚ) * back
  ∧ (runStep back false r).1 = (runStep back false r2).1 := by
  have hback : (0 : ℚ) ≤ (back : ℚ) := Nat.cast_nonneg back
  refine ⟨rfl, backoffAfterFailures_eq n, ?_, by simp [runStep], by simp [runStep], ?_, ?_, rfl⟩
  · rw [backoffAfterFailures_eq n, backoffAfterFailures_eq (n + 1)]
    have hpow : 2 ^ n ≤ 2 ^ (n + 1) := Nat.pow_le_pow_right (by omega) (by omega)
    have h1 : 2 ^ n * nsPerSecond ≤ 2 ^ (n + 1) * nsPerSecond :=
      Nat.mul_le_mul_right _ hpow
    omega
  · unfold addJitter jitter
    nlinarith
  · unfold addJitter jitter
    nlinarith

/-- Witness for C4 at n = 8 failures, stored backoff 1s, draws 1/2 and 0. -/
theorem claim4_backoff_witness :
    backoffAfterFailures 0 = initialBackoff
  ∧ backoffAfterFailures 8 = min (2 ^ 8 * nsPerSecond) maxBackoff
  ∧ backoffAfterFailures 8 ≤ backoffAfterFailures 9
  ∧ (runStep initialBackoff true (1 / 2)).1 = initialBackoff
  ∧ (runStep initialBackoff false (1 / 2)).2
      = some (addJitter initialBackoff jitter (1 / 2))
  ∧ (1 - 1 / 5 : ℚ) * initialBackoff ≤ addJitter initialBackoff jitter (1 / 2)
  ∧ addJitter initialBackoff jitter (1 / 2) ≤ (1 + 1 / 5 : ℚ) * initialBackoff
  ∧ (runStep initialBackoff false (1 / 2)).1 = (runStep initialBackoff false 0).1 :=
  claim4_backoff 8 initialBackoff (1 / 2) 0 (by norm_num) (by norm_num)

/-- C5: Buffer bounds and non-blocking push: at every state reachable by a
trace of Push/PopBatch operations from a freshly constructed buffer, Len
never exceeds the capacity fixed at construction; and Push is a total
function of the state — for any reachable state and any record it produces
the successor state in one step (never blocks, never fails), appending the
record as newest whenever the capacity is at least one. -/
theorem claim5_bounds (C : Nat) (ops : List (BufOp Sample)) (x : Sample)
    (hC : 1 ≤ C) :
    Len (runTrace (NewBackpressureBuffer Sample C) ops).1 ≤ C
  ∧ (∀ b : BackpressureBuffer Sample, b.bufferSize = C → b.buffer.length ≤ C →
      (Push b x).buffer.length ≤ C ∧ (Push b x).buffer.getLast? = some x) := by
  constructor
  · have h := runTrace_length_le (α := Sample) ops (NewBackpressureBuffer Sample C)
      (by simp [NewBackpressureBuffer])
    simpa [Len, NewBackpressureBuffer] using h
  · intro b hsz hle
    by_cases hfull : b.buffer.length < b.bufferSize
    · rw [Push_of_not_full b x hfull]
      constructor
      · simp only [List.length_append, List.length_cons, List.length_nil]
        omega
      · simp
    · have heq : b.buffer.length = b.bufferSize := by omega
      have hpos : 0 < b.bufferSize := by omega
      obtain ⟨hbuf, -⟩ := Push_of_full b x heq hpos
      rw [hbuf]
      constructor
      · have := List.length_tail b.buffer
        simp only [List.length_append, List.length_cons, List.length_nil]
        omega
      · simp

/-- Witness for C5 at capacity 5, trace [push 1, push 2, push 3, popBatch 1],
then a push of record 9 onto `exampleBuf`. -/
theorem claim5_bounds_witness :
    Len (runTrace (NewBackpressureBuffer Sample 5)
        [BufOp.push 1, BufOp.push 2, BufOp.push 3, BufOp.popBatch 1]).1 ≤ 5
  ∧ (Push exampleBuf 9).buffer.length ≤ 5
  ∧ (Push exampleBuf 9).buffer.getLast? = some 9 := by
  refine ⟨(claim5_bounds 5 [BufOp.push 1, BufOp.push 2, BufOp.push 3, BufOp.popBatch 1]
      9 (by decide)).1, ?_, ?_⟩
  · exact ((claim5_bounds 5 [] 9 (by decide)).2 exampleBuf rfl (by decide)).1
  · exact ((claim5_bounds 5 [] 9 (by decide)).2 exampleBuf rfl (by decide)).2

/-- C6: Drop-warning cadence: Push emits the backpressure warning exactly
when the push dropped a record (the buffer was full) and the cumulative
dropped counter after the increment is a positive multiple of 10; the
warning records that counter value, and no warning is emitted after drops
1–9, 11–19, and so on. -/
theorem claim6_warning_cadence (b : BackpressureBuffer Sample) (x : Sample) :
    ((Push b x).dropWarnLog ≠ b.dropWarnLog ↔
      (b.bufferSize ≤ b.buffer.length ∧ 10 ∣ (b.dropped + 1) ∧ 0 < b.dropped + 1))
  ∧ ((Push b x).dropWarnLog ≠ b.dropWarnLog →
      (Push b x).dropWarnLog = b.dropWarnLog ++ [b.dropped + 1]) := by
  by_cases hfull : b.buffer.length < b.bufferSize
  · rw [Push_of_not_full b x hfull]
    constructor
    · constructor
      · intro h; exact absurd rfl h
      · intro h; omega
    · intro h; exact absurd rfl h
  · have hge : b.bufferSize ≤ b.buffer.length := by omega
    have hlog : (Push b x).dropWarnLog =
        if (b.dropped + 1) % 10 = 0 then b.dropWarnLog ++ [b.dropped + 1]
        else b.dropWarnLog := by
      unfold Push
      rw [if_neg hfull]
    by_cases hmod : (b.dropped + 1) % 10 = 0
    · rw [hlog, if_pos hmod]
      have hne : b.dropWarnLog ++ [b.dropped + 1] ≠ b.dropWarnLog := by
        intro h
        have := congrArg List.length h
        simp at this
      refine ⟨⟨fun _ => ⟨hge, ?_, by omega⟩, fun _ => hne⟩, fun _ => rfl⟩
      omega
    · rw [hlog, if_neg hmod]
      constructor
      · constructor
        · intro h; exact absurd rfl h
        · rintro ⟨-, hdvd, -⟩
          omega
      · intro h; exact absurd rfl h

/-- A full capacity-1 buffer with 9 drops already recorded, so the next drop
is the 10th. -/
def fullBuf9 : BackpressureBuffer Sample :=
  { bufferSize := 1, buffer := [0], dropped := 9, dropWarnLog := [], failWarnCount := 0 }

/-- Witness for C6: pushing into a full buffer whose next drop is the 10th
emits the warning recording the counter value 10. -/
theorem claim6_warning_cadence_witness :
    (Push fullBuf9 7).dropWarnLog = fullBuf9.dropWarnLog ++ [fullBuf9.dropped + 1] :=
  (claim6_warning_cadence fullBuf9 7).2 (by decide)

/-- C7: Outbound envelope shape: the writer sends an envelope only when the
popped batch is non-empty (never an empty envelope); any sent envelope is the
single message produced by sendSamples from the entire popped batch, so its
discriminant is "metrics", its samples are the batch in pop order, it holds
at most batchSize = 10 records, and the batch is never split across
messages. -/
theorem claim7_envelope (b : BackpressureBuffer Sample) (d : Bool) :
    ((PopBatch b d batchSize).1.getD [] = [] → (writeStep b d).1 = none)
  ∧ (∀ m, (writeStep b d).1 = some m →
      m = sendSamples ((PopBatch b d batchSize).1.getD [])
      ∧ m.msgType = "metrics"
      ∧ m.samples = (PopBatch b d batchSize).1.getD []
      ∧ m.samples ≠ []
      ∧ m.samples.length ≤ batchSize) := by
  cases d with
  | true =>
      rw [show writeStep b true = (none, b) from by
        simp [writeStep, PopBatch_done]]
      exact ⟨fun _ => rfl, fun m hm => by simp at hm⟩
  | false =>
      cases hbuf : b.buffer with
      | nil =>
          rw [show writeStep b false = (none, (PopBatch b false batchSize).2) from by
            simp [writeStep, PopBatch_nil b batchSize hbuf]]
          exact ⟨fun _ => rfl, fun m hm => by simp at hm⟩
      | cons s rest =>
          have hpop := PopBatch_eq b batchSize s rest hbuf
          have hsamples : (PopBatch b false batchSize).1.getD [] = s :: rest.take 9 := by
            rw [hpop]; rfl
          have hws : (writeStep b false).1 = some (sendSamples (s :: rest.take 9)) := by
            unfold writeStep
            rw [hpop]
            simp [batchSize]
          constructor
          · intro hempty
            rw [hsamples] at hempty
            exact absurd hempty (by simp)
          · intro m hm
            rw [hws] at hm
            obtain rfl : m = sendSamples (s :: rest.take 9) := by
              exact (Option.some_inj.mp hm).symm
            refine ⟨by rw [hsamples], rfl, by rw [hsamples]; rfl, by simp [sendSamples], ?_⟩
            simp only [sendSamples, batchSize, List.length_cons, List.length_take]
            omega

/-- Witness for C7 at `exampleBuf`: the writer emits exactly the "metrics"
envelope carrying [1,2,3]. -/
theorem claim7_envelope_witness :
    writeStep exampleBuf false
      = (some (sendSamples [1, 2, 3]), (PopBatch exampleBuf false batchSize).2)
  ∧ (sendSamples ([1, 2, 3] : List Sample)).msgType = "metrics"
  ∧ (sendSamples ([1, 2, 3] : List Sample)).samples.length ≤ batchSize := by
  have h := (claim7_envelope exampleBuf false).2 (sendSamples [1, 2, 3]) (by decide)
  exact ⟨by decide, h.2.1, h.2.2.2.2⟩

/-- C8: Inbound error discipline: a readLoop iteration ends the session
exactly on a transport-level read error; a frame that fails to parse is
logged and skipped with the loop continuing; a successfully parsed control
envelope never ends the session, and one with an unknown discriminant is
logged as unknown and ignored, leaving the client unchanged. -/
theorem claim8_read_discipline (c : Client Sample) (ev : InboundRead)
    (ctrl : ControlMessage)
    (hunk : ctrl.msgType ∉ (["setRate", "pause", "resume"] : List String)) :
    ((readStep c ev).1 = ReadOutcome.endSession ↔ ev = InboundRead.readErr)
  ∧ (readStep c (InboundRead.frame none)).1 = ReadOutcome.continueLoop
  ∧ (readStep c (InboundRead.frame none)).2.2 = ["Failed to parse control message"]
  ∧ (readStep c (InboundRead.frame (some ctrl))).1 = ReadOutcome.continueLoop
  ∧ (handleControlMessage c ctrl).2
      = ["Received control message " ++ ctrl.msgType,
         "Unknown control message type " ++ ctrl.msgType]
  ∧ (handleControlMessage c ctrl).1 = c := by
  have hhandle : handleControlMessage c ctrl
      = (c, ["Received control message " ++ ctrl.msgType,
             "Unknown control message type " ++ ctrl.msgType]) := by
    simp only [List.mem_cons, List.mem_singleton, not_or] at hunk
    obtain ⟨h1, h2, h3, -⟩ := hunk
    unfold handleControlMessage
    split
    · next heq => exact absurd heq h1
    · next heq => exact absurd heq h2
    · next heq => exact absurd heq h3
    · rfl
  refine ⟨?_, rfl, rfl, ?_, by rw [hhandle], by rw [hhandle]⟩
  · cases ev with
    | readErr => simp [readStep]
    | frame parsed =>
        cases parsed with
        | none => simp [readStep]
        | some ctrl2 => simp [readStep]
  · rfl

/-- Witness for C8 with a parsed control message of unknown discriminant
"reboot". -/
theorem claim8_read_discipline_witness :
    ((readStep
        ({ apiURL := "wss://x", token := "t", hostID := "h", conn := some 1,
           buffer := exampleBuf } : Client Sample)
        (InboundRead.frame (some { msgType := "reboot", intervalMs := 0 }))).1
      = ReadOutcome.endSession ↔
      InboundRead.frame (some { msgType := "reboot", intervalMs := 0 })
        = InboundRead.readErr)
  ∧ (handleControlMessage
      ({ apiURL := "wss://x", token := "t", hostID := "h", conn := some 1,
         buffer := exampleBuf } : Client Sample)
      { msgType := "reboot", intervalMs := 0 }).1
      = ({ apiURL := "wss://x", token := "t", hostID := "h", conn := some 1,
           buffer := exampleBuf } : Client Sample) := by
  have h := claim8_read_discipline
    ({ apiURL := "wss://x", token := "t", hostID := "h", conn := some 1,
       buffer := exampleBuf } : Client Sample)
    (InboundRead.frame (some { msgType := "reboot", intervalMs := 0 }))
    { msgType := "reboot", intervalMs := 0 }
    (by decide)
  exact ⟨h.1, h.2.2.2.2.2⟩

/-- C9: A non-nil PopBatch result always contains at least one record; with
maxCount 0 the call still blocks for and returns exactly one record, so the
"at most maxCount records" bound holds under the precondition 1 ≤ maxCount. -/
theorem claim9_popbatch_nonempty (b : BackpressureBuffer Sample) (k : Nat)
    (hne : b.buffer ≠ []) :
    (∀ d l, (PopBatch b d k).1 = some l → l ≠ [])
  ∧ (∃ x, (PopBatch b false 0).1 = some [x])
  ∧ (∀ l, (PopBatch b false k).1 = some l → 1 ≤ k → l.length ≤ k) := by
  obtain ⟨s, rest, hcons⟩ : ∃ s rest, b.buffer = s :: rest := by
    cases hbuf : b.buffer with
    | nil => exact absurd hbuf hne
    | cons s rest => exact ⟨s, rest, rfl⟩
  refine ⟨?_, ?_, ?_⟩
  · intro d l hl
    cases d with
    | true => rw [PopBatch_done] at hl; simp at hl
    | false =>
        rw [PopBatch_eq b k s rest hcons] at hl
        obtain rfl : l = s :: rest.take (k - 1) := by simpa using hl.symm
        simp
  · refine ⟨s, ?_⟩
    rw [PopBatch_eq b 0 s rest hcons]
    simp
  · intro l hl hk
    rw [PopBatch_eq b k s rest hcons] at hl
    obtain rfl : l = s :: rest.take (k - 1) := by simpa using hl.symm
    simp only [List.length_cons, List.length_take]
    omega

/-- Witness for C9 at `exampleBuf` with maxCount 2. -/
theorem claim9_popbatch_nonempty_witness :
    ([1, 2] : List Sample) ≠ []
  ∧ (PopBatch exampleBuf false 0).1 = some [1]
  ∧ ([1, 2] : List Sample).length ≤ 2 := by
  refine ⟨?_, ?_, ?_⟩
  · exact (claim9_popbatch_nonempty exampleBuf 2 (by decide)).1 false [1, 2] (by decide)
  · obtain ⟨x, hx⟩ := (claim9_popbatch_nonempty exampleBuf 2 (by decide)).2.1
    have : x = 1 := by
      have hx2 : (PopBatch exampleBuf false 0).1 = some [1] := by decide
      rw [hx2] at hx
      simpa using hx.symm
    rw [this] at hx
    exact hx
  · exact (claim9_popbatch_nonempty exampleBuf 2 (by decide)).2.2 [1, 2] (by decide)
      (by decide)

/-- C10: The control-message handler only logs: for every control message —
setRate, pause, resume, or unknown — the client returned by
handleControlMessage is identical to the one passed in (buffer contents,
dropped counter, connection handle, token all unchanged); its only output
besides the unchanged state is log text. -/
theorem claim10_handler_pure (c : Client Sample) (msg : ControlMessage) :
    (handleControlMessage c msg).1 = c
  ∧ (handleControlMessage c msg).1.buffer = c.buffer
  ∧ (handleControlMessage c msg).1.buffer.dropped = c.buffer.dropped
  ∧ (handleControlMessage c msg).1.conn = c.conn
  ∧ (handleControlMessage c msg).1.token = c.token
  ∧ (handleControlMessage c { msgType := "setRate", intervalMs := msg.intervalMs }).1 = c
  ∧ (handleControlMessage c { msgType := "pause", intervalMs := 0 }).1 = c
  ∧ (handleControlMessage c { msgType := "resume", intervalMs := 0 }).1 = c := by
  have h : ∀ m : ControlMessage, (handleControlMessage c m).1 = c := by
    intro m
    unfold handleControlMessage
    split <;> rfl
  exact ⟨h msg, by rw [h msg], by rw [h msg], by rw [h msg], by rw [h msg],
    h _, h _, h _⟩

end ws
end WindashAgent
